import Mathlib

/-!
Verification of the NOA image-annotation application core against its
natural-language specification.  The Python sources are shallowly embedded:
pure functions become Lean functions, machine integers become `Int`/`Nat`,
`float` box/score data becomes `ℚ`, and fallible code returns `Except`/`Option`.
-/

namespace NOA

/-! ## Python arithmetic helpers

`pyInt q` models Python's `int(x)` on a real number: truncation toward zero.
`pyRound q` models Python 3's `round(x)`: round half to even (banker's rounding).
`Int.fdiv` models Python's floor division `//`.
-/

/-- Python `int(x)`: truncation toward zero. -/
def pyInt (q : ℚ) : ℤ := if q < 0 then ⌈q⌉ else ⌊q⌋

/-- Python 3 `round(x)`: nearest integer, ties to even. -/
def pyRound (q : ℚ) : ℤ :=
  let f : ℤ := ⌊q⌋
  let r : ℚ := q - f
  if r < 1/2 then f
  else if 1/2 < r then f + 1
  else if f % 2 = 0 then f else f + 1

/-! ## Tier-1 memory cache (`noa_app/services/cache.py`, class `LRUCache`)

The Python class keeps an `OrderedDict`; we embed the pure (memory-only,
`disk_dir=None`) behaviour as an association list ordered from
least-recently-used (front) to most-recently-used (back), which is exactly
the iteration order of the `OrderedDict`:

* `get` (`cache.py:27-39`): on a hit, `move_to_end` then return the value;
  on a miss (with no disk tier) return `None` and leave the store unchanged.
* `put` (`cache.py:41-48`): `store[key] = value` then `move_to_end` — i.e.
  any existing binding is removed and `(key, value)` is appended at the
  most-recently-used end — then `_evict`.
* `_evict` (`cache.py:50-52`): `popitem(last=False)` (drop the front,
  least-recently-used entry) while the store is larger than `capacity`.
-/

structure LRUCache (K V : Type) where
  capacity : ℕ
  store : List (K × V)

variable {K V : Type} [DecidableEq K]

/-- Keys currently in the store, LRU first. -/
def LRUCache.keys (c : LRUCache K V) : List K := c.store.map Prod.fst

/-- Source `_evict`: pop least-recently-used entries while `len(store) > capacity`. -/
def LRUCache.evict (c : LRUCache K V) : LRUCache K V :=
  { c with store := c.store.drop (c.store.length - c.capacity) }

/-- Remove the binding for `k`, if any (the effect of rebinding a key in an
`OrderedDict` combined with `move_to_end`). -/
def LRUCache.eraseKey (c : LRUCache K V) (k : K) : LRUCache K V :=
  { c with store := c.store.filter (fun p => p.1 ≠ k) }

/-- Source `put` (`cache.py:41-48`, memory tier): bind `k ↦ v` at the
most-recently-used end, then evict. -/
def LRUCache.put (c : LRUCache K V) (k : K) (v : V) : LRUCache K V :=
  LRUCache.evict { c with store := (c.eraseKey k).store ++ [(k, v)] }

/-- Source `get` (`cache.py:27-39`, memory tier, `disk_dir=None`): on a hit,
promote to most-recently-used and return the value. -/
def LRUCache.get (c : LRUCache K V) (k : K) : Option V × LRUCache K V :=
  match c.store.find? (fun p => p.1 = k) with
  | some kv => (some kv.2, { c with store := (c.eraseKey k).store ++ [kv] })
  | none => (none, c)

/-- Insert a list of bindings in order via `put`. -/
def LRUCache.putAll (c : LRUCache K V) (l : List (K × V)) : LRUCache K V :=
  l.foldl (fun st p => st.put p.1 p.2) c

/-! ## Crop geometry (`noa_app/services/cropper.py`)

An in-memory pixel buffer (`np.ndarray` of shape `(h, w, c)`) is embedded as
its dimensions plus a total pixel function; sample values are rationals.
Reads outside `h × w × c` never occur in the modelled code paths.
-/

structure Img where
  h : ℕ
  w : ℕ
  c : ℕ
  px : ℕ → ℕ → ℕ → ℚ

/-- Source `cropper.py:11-16`. -/
structure BBox where
  xmin : ℤ
  ymin : ℤ
  xmax : ℤ
  ymax : ℤ

/-- Source `cropper.py:19-22`. -/
structure CropSpec where
  padding_ratio : ℚ
  output_size : ℕ

/-- Source `bw = bbox.xmax - bbox.xmin` (`cropper.py:40`). -/
def boxW (b : BBox) : ℤ := b.xmax - b.xmin

/-- Source `bh = bbox.ymax - bbox.ymin` (`cropper.py:41`). -/
def boxH (b : BBox) : ℤ := b.ymax - b.ymin

/-- Source `pad_x = int(bw * spec.padding_ratio)` (`cropper.py:42`). -/
def padX (b : BBox) (r : ℚ) : ℤ := pyInt ((boxW b : ℚ) * r)

/-- Source `pad_y = int(bh * spec.padding_ratio)` (`cropper.py:43`). -/
def padY (b : BBox) (r : ℚ) : ℤ := pyInt ((boxH b : ℚ) * r)

/-- Source `cx = (bbox.xmin + bbox.xmax) // 2` (`cropper.py:44`); `//` is floor division. -/
def centerX (b : BBox) : ℤ := Int.fdiv (b.xmin + b.xmax) 2

/-- Source `cy = (bbox.ymin + bbox.ymax) // 2` (`cropper.py:45`). -/
def centerY (b : BBox) : ℤ := Int.fdiv (b.ymin + b.ymax) 2

/-- Source `half = max((bw // 2) + pad_x, (bh // 2) + pad_y)` (`cropper.py:47`). -/
def cropHalf (b : BBox) (r : ℚ) : ℤ :=
  max (Int.fdiv (boxW b) 2 + padX b r) (Int.fdiv (boxH b) 2 + padY b r)

/-- Source `left = cx - half` (`cropper.py:48`). -/
def winLeft (b : BBox) (r : ℚ) : ℤ := centerX b - cropHalf b r

/-- Source `right = cx + half` (`cropper.py:49`). -/
def winRight (b : BBox) (r : ℚ) : ℤ := centerX b + cropHalf b r

/-- Source `top = cy - half` (`cropper.py:50`). -/
def winTop (b : BBox) (r : ℚ) : ℤ := centerY b - cropHalf b r

/-- Source `bottom = cy + half` (`cropper.py:51`). -/
def winBottom (b : BBox) (r : ℚ) : ℤ := centerY b + cropHalf b r

/-- The zero-filled canvas with the crop placed on it (`cropper.py:53-65`):
`x0/y0/x1/y1` clip the window to the image, `crop = image[y0:y1, x0:x1]` is
written at offset `(dy, dx) = (y0 - top, x0 - left)`, and everything outside
that region stays black.  An empty numpy slice (`x1 ≤ x0` or `y1 ≤ y0`)
writes nothing, which the guard below reproduces. -/
def cropCanvas (img : Img) (b : BBox) (r : ℚ) : Img :=
  let left := winLeft b r
  let top := winTop b r
  let x0 : ℤ := max 0 left
  let y0 : ℤ := max 0 top
  let x1 : ℤ := min (img.w : ℤ) (winRight b r)
  let y1 : ℤ := min (img.h : ℤ) (winBottom b r)
  let dx := x0 - left
  let dy := y0 - top
  { h := (2 * cropHalf b r).toNat
    w := (2 * cropHalf b r).toNat
    c := img.c
    px := fun y x ch =>
      if dy ≤ (y : ℤ) ∧ (y : ℤ) < dy + (y1 - y0) ∧ dx ≤ (x : ℤ) ∧ (x : ℤ) < dx + (x1 - x0) then
        img.px (y0 + ((y : ℤ) - dy)).toNat (x0 + ((x : ℤ) - dx)).toNat ch
      else 0 }

/-- Fractional overlap of the length-1 source cell `[i, i+1)` with the
interval `[a, b)`. -/
def overlapWt (a b : ℚ) (i : ℕ) : ℚ := max 0 (min b (i + 1) - max a i)

/-- Source `cv2.resize(canvas, (n, n), interpolation=cv2.INTER_AREA)`
(`cropper.py:67`), embedded as exact area averaging: output pixel `(y, x)`
is the average of the source over the rectangle
`[y·sy, (y+1)·sy) × [x·sx, (x+1)·sx)` with fractional cell coverage, which
is the pixel-area relation INTER_AREA computes. -/
def resizeArea (src : Img) (n : ℕ) : Img :=
  { h := n
    w := n
    c := src.c
    px := fun y x ch =>
      let sy : ℚ := (src.h : ℚ) / n
      let sx : ℚ := (src.w : ℚ) / n
      ((Finset.range src.h).sum fun i =>
        (Finset.range src.w).sum fun j =>
          overlapWt ((y : ℚ) * sy) (((y : ℚ) + 1) * sy) i *
            overlapWt ((x : ℚ) * sx) (((x : ℚ) + 1) * sx) j * src.px i j ch) / (sy * sx) }

/-- Source `crop_with_padding` (`cropper.py:32-68`).  `cv2.resize` raises
(`!ssize.empty()` / `!dsize.empty()` assertions) when the canvas or the
requested output is empty; that failure is modelled as `none`. -/
def crop_with_padding (img : Img) (b : BBox) (spec : CropSpec) : Option Img :=
  if 2 * cropHalf b spec.padding_ratio ≤ 0 ∨ spec.output_size = 0 then none
  else some (resizeArea (cropCanvas img b spec.padding_ratio) spec.output_size)

/-! ## Image decoding (`noa_app/services/image_io.py`)

`load_image_rgb` calls three external decoder libraries in order: PIL,
OpenCV (`cv2.imread`), and `tifffile.imread`.  The libraries themselves are
outside the repository, so each call is embedded as an oracle argument
holding the library's answer for the path being loaded (`none` models "the
call raised or returned no image").  The repository's own logic — the
fallback order, the channel normalizations, the empty-data check and the
final placeholder — is translated below.
-/

/-- Source `DecodeError` from the spec's error taxonomy.  The return type of the
embedded loader makes the error channel explicit; which paths use it is
exactly what the source decides. -/
inductive DecodeErr where
  | decodeError
  deriving DecidableEq

/-- A `cv2.imread(..., IMREAD_UNCHANGED)` result: a 2-D grayscale array or
an `(h, w, c)` colour array. -/
inductive CvArr where
  | gray (h w : ℕ) (px : ℕ → ℕ → ℚ)
  | color (h w c : ℕ) (px : ℕ → ℕ → ℕ → ℚ)

/-- The OpenCV branch of `load_image_rgb` (`image_io.py:35-44`):
`GRAY2BGR` on 2-D input, `BGRA2BGR` on 4-channel input, then `BGR2RGB`
(swap channels 0 and 2). -/
def cvNormalize : CvArr → Img
  | .gray h w px => { h := h, w := w, c := 3, px := fun y x _ => px y x }
  | .color h w c px =>
    let bgr : Img :=
      if c = 4 then { h := h, w := w, c := 3, px := fun y x ch => px y x ch }
      else { h := h, w := w, c := c, px := px }
    { bgr with px := fun y x ch => bgr.px y x (if ch = 0 then 2 else if ch = 2 then 0 else ch) }

/-- A `tifffile.imread` result of 2, 3 or 4 dimensions. -/
inductive TifArr where
  | d2 (h w : ℕ) (px : ℕ → ℕ → ℚ)
  | d3 (s0 s1 s2 : ℕ) (px : ℕ → ℕ → ℕ → ℚ)
  | d4 (n s0 s1 s2 : ℕ) (px : ℕ → ℕ → ℕ → ℕ → ℚ)

/-- The tifffile branch of `load_image_rgb` (`image_io.py:51-68`): take the
first image of a 4-D stack, reject empty data (`arr.size == 0` raises,
caught by the surrounding `except`), replicate 2-D data to 3 channels,
transpose channel-first 3-D layouts, replicate single-channel, and drop
channels beyond the third.  `none` means the branch raised. -/
def tifProcess : TifArr → Option Img
  | .d2 h w px =>
    if h * w = 0 then none
    else some { h := h, w := w, c := 3, px := fun y x _ => px y x }
  | .d3 s0 s1 s2 px =>
    if s0 * s1 * s2 = 0 then none
    else
      let a : Img :=
        if (s0 = 1 ∨ s0 = 3 ∨ s0 = 4) ∧ ¬(s2 = 1 ∨ s2 = 3 ∨ s2 = 4) then
          { h := s1, w := s2, c := s0, px := fun y x ch => px ch y x }
        else { h := s0, w := s1, c := s2, px := px }
      if a.c = 1 then some { a with c := 3, px := fun y x _ => a.px y x 0 }
      else if 3 < a.c then some { a with c := 3 }
      else some a
  | .d4 n s0 s1 s2 px =>
    if n = 0 then none
    else tifProcess (.d3 s0 s1 s2 (px 0))

/-- The synthetic image built at `image_io.py:72-81`: 1024×1280, RGB,
value 128 on every 50th row and column, 0 elsewhere. -/
def placeholderImg : Img :=
  { h := 1024
    w := 1280
    c := 3
    px := fun y x _ => if y % 50 = 0 ∨ x % 50 = 0 then 128 else 0 }

/-- Source `load_image_rgb` (`image_io.py:11-81`).  `pil` is the PIL result
(already converted to RGB by `img.convert('RGB')`, frame 0 of multi-frame
files), `cv` the raw `cv2.imread` result, `tif` the raw `tifffile.imread`
result; `none` models a raised exception / `None` return. -/
def load_image_rgb (pil : Option Img) (cv : Option CvArr) (tif : Option TifArr) :
    Except DecodeErr Img :=
  match pil with
  | some a => .ok a
  | none =>
    match cv with
    | some a => .ok (cvNormalize a)
    | none =>
      match tif with
      | some t =>
        match tifProcess t with
        | some img => .ok img
        | none => .ok placeholderImg
      | none => .ok placeholderImg

/-- Numpy dtypes distinguished by `to_uint8_for_display`. -/
inductive NpDtype where
  | u8
  | u16
  | other
  deriving DecidableEq

/-- A numpy buffer with integer sample values and an explicit dtype tag. -/
structure NpImg where
  dtype : NpDtype
  h : ℕ
  w : ℕ
  c : ℕ
  px : ℕ → ℕ → ℕ → ℕ

/-- Source `to_uint8_for_display` (`image_io.py:84-92`).  For `uint16` input the
source computes `(image / 257).astype(np.uint8)`: float64 true division
followed by a truncating cast.  For `v < 2^16` the float64 quotient is
within `2^-40` of the exact rational `v / 257`, while `v / 257` is at least
`1/257` away from the next integer below or above whenever it is not an
integer, so the truncated float equals the exact rational truncation
modelled here. -/
def to_uint8_for_display (img : NpImg) : Except String NpImg :=
  match img.dtype with
  | .u8 => .ok img
  | .u16 =>
    .ok { img with
          dtype := .u8
          px := fun y x ch => (pyInt ((img.px y x ch : ℚ) / 257)).toNat }
  | .other => .error "Unsupported dtype"

/-! ## Path strings

`pathlib.Path` operations used by the loader and the resolver, modelled on
plain strings with `/`-separated components. -/

/-- Split a character list at `'/'` (structural `String.splitOn "/"`). -/
def splitSlash : List Char → List (List Char)
  | [] => [[]]
  | ch :: rest =>
    match splitSlash rest with
    | [] => [[ch]]
    | g :: gs => if ch = '/' then [] :: g :: gs else (ch :: g) :: gs

/-- Non-empty path components; `pathlib` drops `"."` and empty segments. -/
def pathComponents (s : String) : List String :=
  ((splitSlash s.data).map String.mk).filter (fun c => c ≠ "" ∧ c ≠ ".")

/-- Structural `String.startsWith`. -/
def strStarts (s p : String) : Bool := s.data.take p.data.length = p.data

/-- Source `Path(s).name`. -/
def pathName (s : String) : String := ((pathComponents s).getLast?).getD ""

/-- Source `Path(s).parent.name`. -/
def parentName (s : String) : String :=
  (((pathComponents s).dropLast).getLast?).getD ""

/-- Python `str.lower()` (ASCII case folding suffices for the names used). -/
def pyLower (s : String) : String := String.mk (s.data.map Char.toLower)

/-! ## Dataset parsing (`noa_app/services/json_loader.py`)

`json.load` yields a Python value; the subset JSON can produce is embedded
as `J`.  `load_detections` (`json_loader.py:27-70`) then walks that value
with plain Python operations (`for … in`, `.get`, `or []`, `len`,
indexing, tuple unpacking, `float`, `int(round(float(…)))`), each of which
is modelled below, with raised exceptions as `Except.error`. -/

inductive J where
  | null
  | bool (b : Bool)
  | num (q : ℚ)
  | str (s : String)
  | arr (l : List J)
  | obj (l : List (String × J))

/-- Python exceptions the modelled operations can raise. -/
inductive PyErr where
  | typeError
  | attributeError
  | valueError
  deriving DecidableEq

instance {ε α : Type} [DecidableEq ε] [DecidableEq α] : DecidableEq (Except ε α) := fun a b =>
  match a, b with
  | .ok x, .ok y =>
    if h : x = y then .isTrue (by rw [h]) else .isFalse (by intro he; cases he; exact h rfl)
  | .error x, .error y =>
    if h : x = y then .isTrue (by rw [h]) else .isFalse (by intro he; cases he; exact h rfl)
  | .ok _, .error _ => .isFalse (by intro he; cases he)
  | .error _, .ok _ => .isFalse (by intro he; cases he)

/-- Python truthiness of a JSON value. -/
def truthy : J → Bool
  | .null => false
  | .bool b => b
  | .num q => q ≠ 0
  | .str s => s ≠ ""
  | .arr l => !l.isEmpty
  | .obj l => !l.isEmpty

/-- Truthiness of an optional value (`dict.get` returns `None` on a miss). -/
def truthyOpt : Option J → Bool
  | none => false
  | some j => truthy j

/-- Source `dict.get(k)`: `json.load` keeps the last duplicate key. -/
def pyGet (kvs : List (String × J)) (k : String) : Option J :=
  (kvs.reverse.find? (fun p => p.1 = k)).map Prod.snd

/-- Source `x or []` as applied to `.get(...)` results (`json_loader.py:52-53`). -/
def orEmptyList (x : Option J) : J :=
  match x with
  | some j => if truthy j then j else .arr []
  | none => .arr []

/-- Source `for … in x`: lists iterate their elements, dicts their keys, strings
their characters; other values raise `TypeError`. -/
def pyIter : J → Option (List J)
  | .arr l => some l
  | .obj kvs => some (kvs.map fun p => .str p.1)
  | .str s => some (s.data.map fun c => .str (String.mk [c]))
  | _ => none

/-- Source `float(x)` on JSON values.  Numeric strings (which CPython would parse)
are not modelled; no dataset claim feeds string-typed numbers. -/
def pyFloat : J → Except PyErr ℚ
  | .num q => .ok q
  | .bool b => .ok (if b then 1 else 0)
  | .str _ => .error .valueError
  | _ => .error .typeError

/-- Source `_to_int` (`json_loader.py:20-24`): `int(round(float(x)))`, falling back
to `int(x)` — which fails on exactly the values `float` fails on here. -/
def pyToInt (x : J) : Except PyErr ℤ :=
  match pyFloat x with
  | .ok q => .ok (pyRound q)
  | .error e => .error e

/-- Source `len` + integer indexing as the detection loop uses them: faithful for
JSON arrays; other values make the loop raise. -/
def asList : J → Except PyErr (List J)
  | .arr l => .ok l
  | _ => .error .typeError

/-- Source `xmin, ymin, xmax, ymax = boxes[i]` (`json_loader.py:56`). -/
def unpack4 : J → Except PyErr (J × J × J × J)
  | .arr [a, b, c, d] => .ok (a, b, c, d)
  | .arr _ => .error .valueError
  | _ => .error .typeError

/-- Source `json_loader.py:9-17`. -/
structure Detection where
  image_path : String
  box_id : String
  xmin : ℤ
  ymin : ℤ
  xmax : ℤ
  ymax : ℤ
  confidence : ℚ
  deriving DecidableEq

/-- The `for i in range(count)` body (`json_loader.py:55-69`) over the
box/score pairs; `count = min(len(boxes), len(scores))` is the length of
the zip.  `i` is the running index used in `box_id = f"{image_p.name}:{i}"`. -/
def detLoop (pname ipath : String) : ℕ → List (J × J) → Except PyErr (List Detection)
  | _, [] => .ok []
  | i, (bj, sj) :: rest => do
    let (a, b, c, d) ← unpack4 bj
    let x0 ← pyToInt a
    let y0 ← pyToInt b
    let x1 ← pyToInt c
    let y1 ← pyToInt d
    let conf ← pyFloat sj
    let tl ← detLoop pname ipath (i + 1) rest
    .ok (⟨ipath, pname ++ ":" ++ toString i, x0, y0, x1, y1, conf⟩ :: tl)

/-- One `for image_entry in data` iteration (`json_loader.py:47-69`):
`.get` on a non-dict raises `AttributeError`; a missing or falsy
`image_path` is skipped via `continue`; `Path` of a non-string raises. -/
def processEntry (e : J) : Except PyErr (List Detection) :=
  match e with
  | .obj kvs =>
    let ip := pyGet kvs "image_path"
    if truthyOpt ip then
      match ip with
      | some (.str s) => do
        let bs ← asList (orEmptyList (pyGet kvs "pred_boxes"))
        let cs ← asList (orEmptyList (pyGet kvs "pred_scores"))
        detLoop (pathName s) s 0 (bs.zip cs)
      | _ => .error .typeError
    else .ok []
  | _ => .error .attributeError

/-- The entry loop, flattening per-entry detections in file order. -/
def loadEntries : List J → Except PyErr (List Detection)
  | [] => .ok []
  | e :: t => do
    let l ← processEntry e
    let r ← loadEntries t
    .ok (l ++ r)

/-- Source `load_detections` (`json_loader.py:27-70`) applied to the parsed JSON
value. -/
def load_detections (data : J) : Except PyErr (List Detection) :=
  match pyIter data with
  | none => .error .typeError
  | some items => loadEntries items

/-! ## Path resolution (`standalone_app/sperm_verification_app.py:925-962`)

The filesystem is embedded as the list `fs` of existing absolute file
paths, ordered as `Path.rglob` enumerates them.  `Path.resolve()` is
modelled as the syntactic join, which is what it computes when the root is
absolute and the joined reference contains no `..` segments (the code
strips leading dots and slashes before joining; no claim input contains an
interior `..`). -/

/-- Source `Path(s).is_absolute()`. -/
def isAbs (s : String) : Bool := strStarts s "/"

/-- Python `s.lstrip("./")`: remove every leading character belonging to
the *set* `{'.', '/'}` — not the prefix `"./"`. -/
def pyLstripDots (s : String) : String :=
  String.mk (s.data.dropWhile (fun c => c = '.' ∨ c = '/'))

/-- Source `p` lies strictly under the directory `root`. -/
def isUnder (root p : String) : Bool := strStarts p (root ++ "/")

/-- Source `root.rglob(basename)` restricted to files: the existing paths under
`root` whose final component is `basename`, in traversal order. -/
def rglobMatches (fs : List String) (root basename : String) : List String :=
  fs.filter (fun p => isUnder root p ∧ pathName p = basename)

/-- Steps 4-6 of `resolve_image_path` (`sperm_verification_app.py:950-962`):
first `rglob` match whose parent directory is named `images`
(case-insensitively), else the first `rglob` match, else the original
reference unchanged. -/
def resolveSearch (fs : List String) (root basename ref : String) : String :=
  match (rglobMatches fs root basename).find? (fun p => pyLower (parentName p) = "images") with
  | some p => p
  | none =>
    match (rglobMatches fs root basename).head? with
    | some p => p
    | none => ref

/-- Source `resolve_image_path` (`sperm_verification_app.py:925-962`).
`dataRoot` is `self.data_root_path` (falsy values fall back to the JSON's
directory), `cache` is `self.image_lookup_cache` read at step 3; the
cache writes in steps 4-5 do not affect the value returned by this call
and are not modelled. -/
def resolve_image_path (fs : List String) (dataRoot : Option String) (jsonDir : String)
    (cache : String → Option String) (ref : String) : String :=
  if isAbs ref ∧ ref ∈ fs then ref
  else
    let basename := pathName ref
    let root := match dataRoot with
      | some r => if r = "" then jsonDir else r
      | none => jsonDir
    let rebased := root ++ "/" ++ pyLstripDots ref
    if rebased ∈ fs then rebased
    else
      match cache basename with
      | some c => if c ≠ "" ∧ c ∈ fs then c else resolveSearch fs root basename ref
      | none => resolveSearch fs root basename ref

/-- Remove every leading occurrence of the two-character prefix `"./"`. -/
def stripDotSlashAux : List Char → List Char
  | '.' :: '/' :: t => stripDotSlashAux t
  | l => l

/-- The literal reading of the spec's step 2: "the reference with any
leading `./` stripped". -/
def stripDotSlash (s : String) : String := String.mk (stripDotSlashAux s.data)

/-- The ordered resolution algorithm exactly as the claim states it
(first match wins; `none` = no step matched): absolute-and-exists, then
the reference with leading `"./"` occurrences stripped rebased under the
root, then a basename match with parent directory `images`
(case-insensitive), then any basename match under the root. -/
def specResolve (fs : List String) (root ref : String) : Option String :=
  if isAbs ref ∧ ref ∈ fs then some ref
  else
    let rebased := root ++ "/" ++ stripDotSlash ref
    if rebased ∈ fs then some rebased
    else
      match (rglobMatches fs root (pathName ref)).find? (fun p => pyLower (parentName p) = "images") with
      | some p => some p
      | none => (rglobMatches fs root (pathName ref)).head?

/-- The same ordered algorithm with step 2 amended to what the source's
`lstrip("./")` does: strip every leading `'.'` and `'/'` character. -/
def specResolveLstrip (fs : List String) (root ref : String) : Option String :=
  if isAbs ref ∧ ref ∈ fs then some ref
  else
    let rebased := root ++ "/" ++ pyLstripDots ref
    if rebased ∈ fs then some rebased
    else
      match (rglobMatches fs root (pathName ref)).find? (fun p => pyLower (parentName p) = "images") with
      | some p => some p
      | none => (rglobMatches fs root (pathName ref)).head?

/-! ## Supporting lemmas -/

lemma LRUCache.eraseKey_of_not_mem {c : LRUCache K V} {k : K} (h : k ∉ c.keys) :
    c.eraseKey k = c := by
  obtain ⟨cap, st⟩ := c
  simp only [LRUCache.keys, LRUCache.eraseKey] at h ⊢
  congr 1
  apply List.filter_eq_self.2
  intro p hp
  have hne : p.1 ≠ k := by
    intro he
    exact h (he ▸ List.mem_map_of_mem Prod.fst hp)
  simpa using hne

lemma LRUCache.capacity_put (c : LRUCache K V) (k : K) (v : V) :
    (c.put k v).capacity = c.capacity := rfl

/-- Inserting a fresh key into a cache with spare room appends it at the
most-recently-used end and evicts nothing. -/
lemma LRUCache.put_fresh {c : LRUCache K V} {k : K} (v : V)
    (hk : k ∉ c.keys) (hlen : c.store.length < c.capacity) :
    c.put k v = { c with store := c.store ++ [(k, v)] } := by
  unfold LRUCache.put LRUCache.evict
  rw [LRUCache.eraseKey_of_not_mem hk]
  have hdrop : c.store.length + 1 - c.capacity = 0 := by omega
  simp [hdrop]

/-- Folding fresh, pairwise-distinct bindings into a cache with enough spare
room appends them in order and evicts nothing. -/
lemma LRUCache.putAll_fresh :
    ∀ (l : List (K × V)) (c : LRUCache K V),
      (c.keys ++ l.map Prod.fst).Nodup →
      c.store.length + l.length ≤ c.capacity →
      c.putAll l = { c with store := c.store ++ l }
  | [], c, _, _ => by simp [LRUCache.putAll]
  | p :: t, c, hnd, hlen => by
    have hk : p.1 ∉ c.keys := by
      intro hmem
      exact (List.disjoint_of_nodup_append hnd) hmem (by simp)
    have hstep : c.put p.1 p.2 = { c with store := c.store ++ [p] } := by
      simpa using LRUCache.put_fresh p.2 hk (by simp at hlen; omega)
    have hrec := LRUCache.putAll_fresh t { c with store := c.store ++ [p] }
      (by
        have : ({ c with store := c.store ++ [p] } : LRUCache K V).keys
            = c.keys ++ [p.1] := by
          simp [LRUCache.keys]
        rw [this]
        simpa using hnd)
      (by simp at hlen ⊢; omega)
    calc c.putAll (p :: t)
        = ({ c with store := c.store ++ [p] } : LRUCache K V).putAll t := by
          simp [LRUCache.putAll, hstep]
      _ = { c with store := c.store ++ [p] ++ t } := hrec
      _ = { c with store := c.store ++ p :: t } := by simp

/-- Evicting the head of a full-plus-one store drops exactly the front entry. -/
lemma LRUCache.put_full {cap : ℕ} {s : List (K × V)} {k : K} (v : V)
    (hk : k ∉ s.map Prod.fst) :
    (LRUCache.mk cap s).put k v = LRUCache.mk cap ((s ++ [(k, v)]).drop (s.length + 1 - cap)) := by
  unfold LRUCache.put LRUCache.evict
  rw [LRUCache.eraseKey_of_not_mem (c := LRUCache.mk cap s) hk]
  simp

/-- Source `get` on a present key promotes it to the most-recently-used end. -/
lemma LRUCache.get_head_promotes {cap : ℕ} (k0 : K) (v0 : V) (rest : List (K × V))
    (hnd : ((k0, v0) :: rest |>.map Prod.fst).Nodup) :
    (LRUCache.mk cap ((k0, v0) :: rest)).get k0
      = (some v0, LRUCache.mk cap (rest ++ [(k0, v0)])) := by
  have hk0 : k0 ∉ rest.map Prod.fst := (List.nodup_cons.1 hnd).1
  have hfind : ((k0, v0) :: rest).find? (fun p => p.1 = k0) = some (k0, v0) :=
    List.find?_cons_of_pos _ (by simp)
  have herase : (LRUCache.mk cap ((k0, v0) :: rest)).eraseKey k0
      = LRUCache.mk cap rest := by
    simp only [LRUCache.eraseKey]
    congr 1
    rw [List.filter_cons_of_neg (by simp)]
    apply List.filter_eq_self.2
    intro p hp
    have hne : p.1 ≠ k0 := by
      intro he
      exact hk0 (he ▸ List.mem_map_of_mem Prod.fst hp)
    simpa using hne
  simp [LRUCache.get, hfind, herase]

/-- Python `//` by 2 is the floor of exact rational division. -/
lemma fdiv_two_eq_floor (a : ℤ) : Int.fdiv a 2 = ⌊(a : ℚ) / 2⌋ := by
  rw [Int.fdiv_eq_ediv a (by norm_num)]
  have h := Rat.floor_intCast_div_natCast a 2
  simpa using h.symm

/-- Python `int(...)` truncation agrees with the floor on non-negative input. -/
lemma pyInt_eq_floor {q : ℚ} (h : 0 ≤ q) : pyInt q = ⌊q⌋ := by
  simp [pyInt, not_lt.2 h]

/-- Truncating the exact quotient `v / 257` gives natural floor division. -/
lemma pyInt_div257_toNat (v : ℕ) : (pyInt ((v : ℚ) / 257)).toNat = v / 257 := by
  rw [pyInt_eq_floor (by positivity), Int.floor_toNat]
  have h := Nat.floor_div_eq_div (α := ℚ) v 257
  simpa using h

/-- Inversion for a successful `Except` bind. -/
lemma except_bind_ok {ε α β : Type} (x : Except ε α) (f : α → Except ε β) (b : β) :
    (x >>= f = Except.ok b) ↔ ∃ a, x = Except.ok a ∧ f a = Except.ok b := by
  cases x <;> simp [Bind.bind, Except.bind]

/-- A successful detection loop yields one record per box/score pair, indexed
in file order. -/
lemma detLoop_spec (pname ipath : String) :
    ∀ (pairs : List (J × J)) (i : ℕ) (l : List Detection),
      detLoop pname ipath i pairs = .ok l →
      l.length = pairs.length ∧
        ∀ j (hj : j < l.length), (l.get ⟨j, hj⟩).box_id = pname ++ ":" ++ toString (i + j)
  | [], i, l, h => by
    simp only [detLoop] at h
    obtain rfl : ([] : List Detection) = l := by simpa using h
    exact ⟨rfl, fun j hj => by simp at hj⟩
  | (bj, sj) :: rest, i, l, h => by
    simp only [detLoop, except_bind_ok] at h
    obtain ⟨⟨a, b, c, d⟩, hu, h⟩ := h
    simp only [except_bind_ok] at h
    obtain ⟨x0, h1, y0, h2, x1, h3, y1, h4, conf, h5, tl, h6, hfin⟩ := h
    obtain rfl : (⟨ipath, pname ++ ":" ++ toString i, x0, y0, x1, y1, conf⟩ :: tl) = l := by
      simpa using hfin
    have ihres := detLoop_spec pname ipath rest (i + 1) tl h6
    refine ⟨by simp [ihres.1], ?_⟩
    intro j hj
    cases j with
    | zero => simp [List.get]
    | succ j =>
      have hj' : j < tl.length := by simp at hj; omega
      have hres := ihres.2 j hj'
      simpa [List.get, show i + 1 + j = i + (j + 1) by omega] using hres

/-- Source `boxes or []` followed by the loop's list uses: a present JSON array is
used as-is (an empty one is replaced by the same empty list). -/
lemma asList_orEmptyList_arr (bs : List J) :
    asList (orEmptyList (some (.arr bs))) = .ok bs := by
  cases bs <;> simp [orEmptyList, truthy, asList]

/-- Area-averaging any all-black buffer is all-black. -/
lemma resizeArea_zero (src : Img) (n : ℕ) (h : ∀ i j ch, src.px i j ch = 0) :
    ∀ y x ch, (resizeArea src n).px y x ch = 0 := by
  intro y x ch
  simp only [resizeArea]
  rw [Finset.sum_eq_zero, zero_div]
  intro i _
  rw [Finset.sum_eq_zero]
  intro j _
  rw [h i j ch, mul_zero]

/-- When the clipped crop window is empty, the canvas is entirely black. -/
lemma cropCanvas_zero_of_empty (img : Img) (b : BBox) (r : ℚ)
    (h : min (img.w : ℤ) (winRight b r) ≤ max 0 (winLeft b r)
       ∨ min (img.h : ℤ) (winBottom b r) ≤ max 0 (winTop b r)) :
    ∀ y x ch, (cropCanvas img b r).px y x ch = 0 := by
  intro y x ch
  simp only [cropCanvas]
  rw [if_neg]
  rintro ⟨hy1, hy2, hx1, hx2⟩
  rcases h with h | h <;> omega

/-- With a positive half-extent and output size, `crop_with_padding`
succeeds and returns the resized canvas. -/
lemma crop_with_padding_some (img : Img) (b : BBox) (spec : CropSpec)
    (hhalf : 0 < cropHalf b spec.padding_ratio) (hout : 0 < spec.output_size) :
    crop_with_padding img b spec
      = some (resizeArea (cropCanvas img b spec.padding_ratio) spec.output_size) := by
  unfold crop_with_padding
  rw [if_neg]
  simp only [not_or]
  exact ⟨by omega, by omega⟩

/-- A window sticking out only over the left image border gives a canvas
that is black exactly on the strip left of `-left` and carries the image
pixels (offset by the window origin) elsewhere. -/
lemma cropCanvas_left_border (img : Img) (b : BBox) (r : ℚ)
    (hl : winLeft b r < 0) (ht : 0 ≤ winTop b r)
    (hr2 : winRight b r ≤ (img.w : ℤ)) (hb : winBottom b r ≤ (img.h : ℤ))
    (y x ch : ℕ) (hy : (y : ℤ) < 2 * cropHalf b r) (hx : (x : ℤ) < 2 * cropHalf b r) :
    ((x : ℤ) < -(winLeft b r) → (cropCanvas img b r).px y x ch = 0)
    ∧ (-(winLeft b r) ≤ (x : ℤ) →
        (cropCanvas img b r).px y x ch
          = img.px (winTop b r + (y : ℤ)).toNat (winLeft b r + (x : ℤ)).toNat ch) := by
  have hbt : winBottom b r - winTop b r = 2 * cropHalf b r := by
    unfold winBottom winTop; ring
  have hrl : winRight b r - winLeft b r = 2 * cropHalf b r := by
    unfold winRight winLeft; ring
  have hx0 : max 0 (winLeft b r) = 0 := by omega
  have hy0 : max 0 (winTop b r) = winTop b r := by omega
  have hx1 : min ((img.w : ℤ)) (winRight b r) = winRight b r := by omega
  have hy1 : min ((img.h : ℤ)) (winBottom b r) = winBottom b r := by omega
  constructor
  · intro hxl
    simp only [cropCanvas, hx0, hy0, hx1, hy1]
    rw [if_neg]
    rintro ⟨-, -, hc3, -⟩
    omega
  · intro hxl
    simp only [cropCanvas, hx0, hy0, hx1, hy1]
    rw [if_pos]
    · congr 2 <;> omega
    · refine ⟨by omega, by omega, by omega, by omega⟩

/-! ## Claim theorems -/

/-- Claim C5: For the Tier-1 memory cache with capacity `N`: inserting `N+1`
distinct keys causes exactly one eviction, and the evicted key is the
least-recently-accessed one; `get` promotes a key to most-recently-used, so
accessing a key via `get` before the `(N+1)`-th insertion protects it from
eviction (the now-least-recently-used second key is evicted instead, which
requires `N ≥ 2` so that another entry exists to absorb the eviction); and
`put` evicts least-recently-used entries until the store holds at most `N`
entries. -/
theorem C5_lru_eviction {K V : Type} [DecidableEq K]
    (cap : ℕ) (ks : List (K × V)) (knew : K) (vnew : V)
    (hnd : (ks.map Prod.fst).Nodup)
    (hlen : ks.length = cap)
    (hcap : 1 ≤ cap)
    (hfresh : knew ∉ ks.map Prod.fst) :
    ((LRUCache.mk cap ([] : List (K × V))).putAll ks).store = ks
    ∧ (((LRUCache.mk cap ([] : List (K × V))).putAll ks).put knew vnew).store
        = ks.tail ++ [(knew, vnew)]
    ∧ (∀ (k0 : K) (v0 : V) (rest : List (K × V)), 2 ≤ cap → ks = (k0, v0) :: rest →
        (((((LRUCache.mk cap ([] : List (K × V))).putAll ks).get k0).2).put knew vnew).store
          = rest.tail ++ [(k0, v0), (knew, vnew)])
    ∧ (∀ (c : LRUCache K V) (k : K) (v : V), ((c.put k v).store).length ≤ c.capacity) := by
  have h1 : (LRUCache.mk cap ([] : List (K × V))).putAll ks = LRUCache.mk cap ks := by
    have hres := LRUCache.putAll_fresh ks (LRUCache.mk cap ([] : List (K × V)))
      (by simpa [LRUCache.keys] using hnd) (by simp [hlen])
    simpa using hres
  refine ⟨by rw [h1], ?_, ?_, ?_⟩
  · rw [h1]
    obtain ⟨p, rest, rfl⟩ : ∃ p r, ks = p :: r := by
      cases ks with
      | nil => simp at hlen; omega
      | cons p r => exact ⟨p, r, rfl⟩
    rw [LRUCache.put_full vnew hfresh]
    have hdrop : rest.length + 1 + 1 - cap = 1 := by
      simp at hlen; omega
    simp [hdrop]
  · intro k0 v0 rest hcap2 hks
    subst hks
    rw [h1, LRUCache.get_head_promotes k0 v0 rest hnd]
    have hf2 : knew ∉ (rest ++ [(k0, v0)]).map Prod.fst := by
      simp at hfresh ⊢
      tauto
    rw [LRUCache.put_full vnew hf2]
    have hlen' : rest.length = cap - 1 := by simp at hlen; omega
    have hdrop : (rest ++ [(k0, v0)]).length + 1 - cap = 1 := by
      simp [hlen']; omega
    rw [hdrop]
    obtain ⟨q, rt, rfl⟩ : ∃ q t, rest = q :: t := by
      cases rest with
      | nil => simp at hlen'; omega
      | cons q t => exact ⟨q, t, rfl⟩
    simp
  · intro c k v
    simp only [LRUCache.put, LRUCache.evict, List.length_drop]
    omega

/-- Witness for C5 at capacity 2 with keys 0, 1 and fresh key 2. -/
theorem C5_lru_eviction_witness :
    ((LRUCache.mk 2 ([] : List (ℕ × ℕ))).putAll [(0, 10), (1, 11)]).store = [(0, 10), (1, 11)]
    ∧ (((LRUCache.mk 2 ([] : List (ℕ × ℕ))).putAll [(0, 10), (1, 11)]).put 2 12).store
        = [(0, 10), (1, 11)].tail ++ [(2, 12)]
    ∧ (∀ (k0 v0 : ℕ) (rest : List (ℕ × ℕ)), 2 ≤ 2 → [(0, 10), (1, 11)] = (k0, v0) :: rest →
        (((((LRUCache.mk 2 ([] : List (ℕ × ℕ))).putAll [(0, 10), (1, 11)]).get k0).2).put 2 12).store
          = rest.tail ++ [(k0, v0), (2, 12)])
    ∧ (∀ (c : LRUCache ℕ ℕ) (k v : ℕ), ((c.put k v).store).length ≤ c.capacity) :=
  C5_lru_eviction 2 [(0, 10), (1, 11)] 2 12 (by decide) (by decide) (by decide) (by decide)

/-- Claim C7: In `crop_with_padding`, the padded half-extent equals
`max(box_w/2 + padding_ratio·box_w, box_h/2 + padding_ratio·box_h)` with
each term truncated by the floor — the truncation consistent with the
floor-truncated box center `((xmin+xmax)/2, (ymin+ymax)/2)` — and the crop
window is the square of side `2·half` centered on that center. -/
theorem C7_crop_half_extent (b : BBox) (r : ℚ)
    (hx : b.xmin < b.xmax) (hy : b.ymin < b.ymax) (hr : 0 ≤ r) :
    cropHalf b r
      = max (⌊(boxW b : ℚ) / 2⌋ + ⌊r * (boxW b : ℚ)⌋)
            (⌊(boxH b : ℚ) / 2⌋ + ⌊r * (boxH b : ℚ)⌋)
    ∧ centerX b = ⌊((b.xmin : ℚ) + (b.xmax : ℚ)) / 2⌋
    ∧ centerY b = ⌊((b.ymin : ℚ) + (b.ymax : ℚ)) / 2⌋
    ∧ winRight b r - winLeft b r = 2 * cropHalf b r
    ∧ winBottom b r - winTop b r = 2 * cropHalf b r
    ∧ winLeft b r + winRight b r = 2 * centerX b
    ∧ winTop b r + winBottom b r = 2 * centerY b := by
  have hbw : (0 : ℚ) ≤ (boxW b : ℚ) := by
    have : (0 : ℤ) ≤ boxW b := by unfold boxW; omega
    exact_mod_cast this
  have hbh : (0 : ℚ) ≤ (boxH b : ℚ) := by
    have : (0 : ℤ) ≤ boxH b := by unfold boxH; omega
    exact_mod_cast this
  refine ⟨?_, ?_, ?_, by unfold winLeft winRight; ring, by unfold winTop winBottom; ring,
    by unfold winLeft winRight; ring, by unfold winTop winBottom; ring⟩
  · unfold cropHalf padX padY
    rw [fdiv_two_eq_floor, fdiv_two_eq_floor,
      pyInt_eq_floor (mul_nonneg hbw hr), pyInt_eq_floor (mul_nonneg hbh hr),
      mul_comm (boxW b : ℚ) r, mul_comm (boxH b : ℚ) r]
  · unfold centerX
    rw [fdiv_two_eq_floor]
    norm_num
  · unfold centerY
    rw [fdiv_two_eq_floor]
    norm_num

/-- Witness for C7 at the box `(0, 0, 3, 2)` with `padding_ratio = 1/2`. -/
theorem C7_crop_half_extent_witness :
    cropHalf ⟨0, 0, 3, 2⟩ (1/2)
      = max (⌊(boxW ⟨0, 0, 3, 2⟩ : ℚ) / 2⌋ + ⌊(1/2 : ℚ) * (boxW ⟨0, 0, 3, 2⟩ : ℚ)⌋)
            (⌊(boxH ⟨0, 0, 3, 2⟩ : ℚ) / 2⌋ + ⌊(1/2 : ℚ) * (boxH ⟨0, 0, 3, 2⟩ : ℚ)⌋)
    ∧ centerX ⟨0, 0, 3, 2⟩ = ⌊((0 : ℚ) + (3 : ℚ)) / 2⌋
    ∧ centerY ⟨0, 0, 3, 2⟩ = ⌊((0 : ℚ) + (2 : ℚ)) / 2⌋
    ∧ winRight ⟨0, 0, 3, 2⟩ (1/2) - winLeft ⟨0, 0, 3, 2⟩ (1/2) = 2 * cropHalf ⟨0, 0, 3, 2⟩ (1/2)
    ∧ winBottom ⟨0, 0, 3, 2⟩ (1/2) - winTop ⟨0, 0, 3, 2⟩ (1/2) = 2 * cropHalf ⟨0, 0, 3, 2⟩ (1/2)
    ∧ winLeft ⟨0, 0, 3, 2⟩ (1/2) + winRight ⟨0, 0, 3, 2⟩ (1/2) = 2 * centerX ⟨0, 0, 3, 2⟩
    ∧ winTop ⟨0, 0, 3, 2⟩ (1/2) + winBottom ⟨0, 0, 3, 2⟩ (1/2) = 2 * centerY ⟨0, 0, 3, 2⟩ :=
  C7_crop_half_extent ⟨0, 0, 3, 2⟩ (1/2) (by decide) (by decide) (by norm_num)

/-- Claim C10: `to_uint8_for_display` returns a `uint8` input unchanged, maps a
`uint16` input elementwise to `floor(v / 257)` as `uint8` (so `0 ↦ 0` and
`65535 ↦ 255`), and raises `ValueError` for every other input dtype. -/
theorem C10_to_uint8_for_display (img : NpImg) :
    (img.dtype = .u8 → to_uint8_for_display img = .ok img)
    ∧ (img.dtype = .u16 →
        ∃ out, to_uint8_for_display img = .ok out
          ∧ out.dtype = .u8
          ∧ (∀ y x ch, out.px y x ch = img.px y x ch / 257)
          ∧ (∀ y x ch, img.px y x ch = 0 → out.px y x ch = 0)
          ∧ (∀ y x ch, img.px y x ch = 65535 → out.px y x ch = 255))
    ∧ (img.dtype = .other → to_uint8_for_display img = .error "Unsupported dtype") := by
  refine ⟨?_, ?_, ?_⟩
  · intro h
    simp [to_uint8_for_display, h]
  · intro h
    refine ⟨⟨NpDtype.u8, img.h, img.w, img.c,
        fun y x ch => (pyInt ((img.px y x ch : ℚ) / 257)).toNat⟩,
      by simp [to_uint8_for_display, h], rfl, ?_, ?_, ?_⟩
    · intro y x ch
      exact pyInt_div257_toNat (img.px y x ch)
    · intro y x ch h0
      show (pyInt ((img.px y x ch : ℚ) / 257)).toNat = 0
      rw [pyInt_div257_toNat, h0]
    · intro y x ch h65
      show (pyInt ((img.px y x ch : ℚ) / 257)).toNat = 255
      rw [pyInt_div257_toNat, h65]
  · intro h
    simp [to_uint8_for_display, h]

/-- Witness for C10 on three concrete one-pixel buffers, one per dtype. -/
theorem C10_to_uint8_for_display_witness :
    to_uint8_for_display ⟨.u8, 1, 1, 3, fun _ _ _ => 7⟩ = .ok ⟨.u8, 1, 1, 3, fun _ _ _ => 7⟩
    ∧ (∃ out, to_uint8_for_display ⟨.u16, 1, 1, 3, fun _ _ _ => 65535⟩ = .ok out
        ∧ out.dtype = .u8
        ∧ (∀ y x ch, out.px y x ch = (65535 : ℕ) / 257)
        ∧ (∀ y x ch, (65535 : ℕ) = 0 → out.px y x ch = 0)
        ∧ (∀ y x ch, (65535 : ℕ) = 65535 → out.px y x ch = 255))
    ∧ to_uint8_for_display ⟨.other, 1, 1, 3, fun _ _ _ => 7⟩ = .error "Unsupported dtype" :=
  ⟨(C10_to_uint8_for_display ⟨.u8, 1, 1, 3, fun _ _ _ => 7⟩).1 rfl,
   (C10_to_uint8_for_display ⟨.u16, 1, 1, 3, fun _ _ _ => 65535⟩).2.1 rfl,
   (C10_to_uint8_for_display ⟨.other, 1, 1, 3, fun _ _ _ => 7⟩).2.2 rfl⟩

/-- Claim C2, counterexample: When every decoder in the chain fails
(`pil`, `cv`, `tif` all raise / return nothing), `load_image_rgb` does not
fail with a `DecodeError`: it returns the synthetic 1024×1280 placeholder
image (grid value 128 at the origin). -/
theorem C2_counterexample :
    load_image_rgb none none none = .ok placeholderImg
    ∧ load_image_rgb none none none ≠ .error DecodeErr.decodeError
    ∧ placeholderImg.h = 1024 ∧ placeholderImg.w = 1280
    ∧ placeholderImg.px 0 0 0 = 128 := by
  refine ⟨rfl, ?_, rfl, rfl, ?_⟩
  · simp [load_image_rgb]
  · norm_num [placeholderImg]

/-- Claim C2, amended: `load_image_rgb` never fails: every call returns a
pixel buffer, and on total decode failure (PIL raised, `cv2.imread`
returned `None`, and `tifffile` raised or produced empty data) it returns
the synthetic placeholder image rather than a typed error. -/
theorem C2_load_never_fails (pil : Option Img) (cv : Option CvArr) (tif : Option TifArr) :
    (∃ img, load_image_rgb pil cv tif = .ok img)
    ∧ (pil = none → cv = none →
        (tif = none ∨ ∃ t, tif = some t ∧ tifProcess t = none) →
        load_image_rgb pil cv tif = .ok placeholderImg) := by
  constructor
  · cases pil with
    | some a => exact ⟨a, rfl⟩
    | none =>
      cases cv with
      | some a => exact ⟨cvNormalize a, rfl⟩
      | none =>
        cases tif with
        | none => exact ⟨placeholderImg, rfl⟩
        | some t =>
          cases htp : tifProcess t with
          | none => exact ⟨placeholderImg, by simp [load_image_rgb, htp]⟩
          | some i => exact ⟨i, by simp [load_image_rgb, htp]⟩
  · rintro rfl rfl (rfl | ⟨t, rfl, htp⟩)
    · rfl
    · simp [load_image_rgb, htp]

/-- Witness for the amended C2 with the whole chain failing. -/
theorem C2_load_never_fails_witness :
    (∃ img, load_image_rgb none none none = .ok img)
    ∧ load_image_rgb none none none = .ok placeholderImg :=
  ⟨(C2_load_never_fails none none none).1,
   (C2_load_never_fails none none none).2 rfl rfl (Or.inl rfl)⟩

/-- Claim C6: For every dataset entry whose `pred_boxes` and `pred_scores`
arrays have different lengths (any lengths, in fact), flattening yields
exactly `min(len(pred_boxes), len(pred_scores))` `Detection` records for
that entry — truncated to the shorter array, never padded — in file order
(the `j`-th record carries box id `"<basename>:<j>"`). -/
theorem C6_mismatched_lengths_truncate (s : String) (kvs : List (String × J))
    (bs cs : List J) (l : List Detection)
    (hs : s ≠ "")
    (hip : pyGet kvs "image_path" = some (.str s))
    (hbs : pyGet kvs "pred_boxes" = some (.arr bs))
    (hcs : pyGet kvs "pred_scores" = some (.arr cs))
    (hok : load_detections (.arr [.obj kvs]) = .ok l) :
    l.length = min bs.length cs.length
    ∧ ∀ j (hj : j < l.length), (l.get ⟨j, hj⟩).box_id = pathName s ++ ":" ++ toString j := by
  have hpe : processEntry (.obj kvs) = detLoop (pathName s) s 0 (bs.zip cs) := by
    simp [processEntry, hip, truthyOpt, truthy, hs, hbs, hcs, asList_orEmptyList_arr,
      Bind.bind, Except.bind]
  simp only [load_detections, pyIter, loadEntries, hpe, except_bind_ok] at hok
  obtain ⟨l0, hd, hfin⟩ := hok
  obtain rfl : l0 ++ [] = l := by
    simpa [Bind.bind, Except.bind, loadEntries] using hfin
  have hspec := detLoop_spec (pathName s) s (bs.zip cs) 0 l0 hd
  refine ⟨?_, ?_⟩
  · simpa [List.length_zip] using hspec.1
  · intro j hj
    have hj0 : j < l0.length := by simpa using hj
    have hres := hspec.2 j hj0
    simpa using hres

/-- Witness for C6: 5 boxes with 3 scores yield exactly 3 records. -/
theorem C6_mismatched_lengths_truncate_witness :
    (3 : ℕ) = min 5 3
    ∧ ∀ j (hj : j < ([⟨"a.tif", "a.tif:" ++ toString 0, 1, 2, 3, 4, 9/10⟩,
        ⟨"a.tif", "a.tif:" ++ toString 1, 5, 6, 7, 8, 8/10⟩,
        ⟨"a.tif", "a.tif:" ++ toString 2, 9, 10, 11, 12, 7/10⟩] : List Detection).length),
        (([⟨"a.tif", "a.tif:" ++ toString 0, 1, 2, 3, 4, 9/10⟩,
          ⟨"a.tif", "a.tif:" ++ toString 1, 5, 6, 7, 8, 8/10⟩,
          ⟨"a.tif", "a.tif:" ++ toString 2, 9, 10, 11, 12, 7/10⟩] : List Detection).get
            ⟨j, hj⟩).box_id = pathName "a.tif" ++ ":" ++ toString j := by
  have h := C6_mismatched_lengths_truncate "a.tif"
    [("image_path", .str "a.tif"),
     ("pred_boxes", .arr [.arr [.num 1, .num 2, .num 3, .num 4],
        .arr [.num 5, .num 6, .num 7, .num 8],
        .arr [.num 9, .num 10, .num 11, .num 12],
        .arr [.num 13, .num 14, .num 15, .num 16],
        .arr [.num 17, .num 18, .num 19, .num 20]]),
     ("pred_scores", .arr [.num (9/10), .num (8/10), .num (7/10)])]
    [.arr [.num 1, .num 2, .num 3, .num 4],
     .arr [.num 5, .num 6, .num 7, .num 8],
     .arr [.num 9, .num 10, .num 11, .num 12],
     .arr [.num 13, .num 14, .num 15, .num 16],
     .arr [.num 17, .num 18, .num 19, .num 20]]
    [.num (9/10), .num (8/10), .num (7/10)]
    [⟨"a.tif", "a.tif:" ++ toString 0, 1, 2, 3, 4, 9/10⟩,
     ⟨"a.tif", "a.tif:" ++ toString 1, 5, 6, 7, 8, 8/10⟩,
     ⟨"a.tif", "a.tif:" ++ toString 2, 9, 10, 11, 12, 7/10⟩]
    (by decide) rfl rfl rfl (by with_unfolding_all decide)
  simpa using h

/-- Claim C8, counterexample: Parsing does not fail in either situation the
claim names: a non-list top-level JSON value (an empty object) parses
successfully to an empty detection list, and an entry lacking an
`image_path` field is silently skipped rather than raising. -/
theorem C8_counterexample :
    load_detections (J.obj []) = .ok []
    ∧ load_detections (.arr [.obj [("pred_boxes", J.arr [])]]) = .ok [] :=
  ⟨rfl, by with_unfolding_all decide⟩

/-- Claim C8, amended: There is no typed `SchemaError`.  A non-iterable
top-level value (number, boolean, `null`) raises an untyped `TypeError`; an
iterable non-list top level either parses to an empty list (empty object)
or raises an untyped `AttributeError` when `.get` hits a non-dict element
(non-empty object, whose keys are iterated); and an entry lacking (or with
falsy) `image_path` is skipped without error. -/
theorem C8_untyped_errors_and_skips :
    (∀ q : ℚ, load_detections (.num q) = .error PyErr.typeError)
    ∧ (∀ b : Bool, load_detections (.bool b) = .error PyErr.typeError)
    ∧ load_detections .null = .error PyErr.typeError
    ∧ load_detections (.obj []) = .ok []
    ∧ (∀ (k : String) (v : J) (kvs : List (String × J)),
        load_detections (.obj ((k, v) :: kvs)) = .error PyErr.attributeError)
    ∧ (∀ kvs : List (String × J), truthyOpt (pyGet kvs "image_path") = false →
        load_detections (.arr [.obj kvs]) = .ok []) := by
  refine ⟨fun q => rfl, fun b => rfl, rfl, rfl, fun k v kvs => rfl, ?_⟩
  intro kvs h
  simp [load_detections, pyIter, loadEntries, processEntry, h, Bind.bind, Except.bind]

/-- Witness for the amended C8 at three concrete inputs. -/
theorem C8_untyped_errors_and_skips_witness :
    load_detections (.num 3) = .error PyErr.typeError
    ∧ load_detections (.obj [("a", J.null)]) = .error PyErr.attributeError
    ∧ load_detections (.arr [.obj [("pred_boxes", J.arr [])]]) = .ok [] :=
  ⟨C8_untyped_errors_and_skips.1 3,
   C8_untyped_errors_and_skips.2.2.2.2.1 "a" J.null [],
   C8_untyped_errors_and_skips.2.2.2.2.2 [("pred_boxes", J.arr [])] rfl⟩

/-- Claim C9, counterexample: Ingesting an entry with the degenerate box
`[5, 5, 5, 5]` succeeds and stores a `Detection` with `xmax = xmin`
(so `xmax > xmin` fails): degenerate boxes are not rejected. -/
theorem C9_counterexample :
    load_detections (.arr [.obj [("image_path", .str "a.tif"),
      ("pred_boxes", .arr [.arr [.num 5, .num 5, .num 5, .num 5]]),
      ("pred_scores", .arr [.num (9/10)])]])
      = .ok [⟨"a.tif", "a.tif:0", 5, 5, 5, 5, 9/10⟩]
    ∧ ¬((⟨"a.tif", "a.tif:0", 5, 5, 5, 5, 9/10⟩ : Detection).xmin
        < (⟨"a.tif", "a.tif:0", 5, 5, 5, 5, 9/10⟩ : Detection).xmax) :=
  ⟨by with_unfolding_all decide, by decide⟩

/-- Claim C9, amended: Ingestion performs no validation of box geometry: for
any box values whatsoever (degenerate ones included) the entry's rounded
coordinates are stored unchanged, neither rejected nor clamped. -/
theorem C9_no_degenerate_box_rejection (name : String) (q1 q2 q3 q4 sc : ℚ)
    (hname : name ≠ "") :
    load_detections (.arr [.obj [("image_path", .str name),
      ("pred_boxes", .arr [.arr [.num q1, .num q2, .num q3, .num q4]]),
      ("pred_scores", .arr [.num sc])]])
      = .ok [⟨name, pathName name ++ ":" ++ toString 0,
          pyRound q1, pyRound q2, pyRound q3, pyRound q4, sc⟩] := by
  simp [load_detections, pyIter, loadEntries, processEntry, pyGet, truthyOpt, truthy, hname,
    orEmptyList, asList, detLoop, unpack4, pyToInt, pyFloat, Bind.bind, Except.bind]

/-- Witness for the amended C9 at the degenerate box `[5, 5, 5, 5]`. -/
theorem C9_no_degenerate_box_rejection_witness :
    load_detections (.arr [.obj [("image_path", .str "a.tif"),
      ("pred_boxes", .arr [.arr [.num 5, .num 5, .num 5, .num 5]]),
      ("pred_scores", .arr [.num (9/10)])]])
      = .ok [⟨"a.tif", pathName "a.tif" ++ ":" ++ toString 0,
          pyRound 5, pyRound 5, pyRound 5, pyRound 5, 9/10⟩] :=
  C9_no_degenerate_box_rejection "a.tif" 5 5 5 5 (9/10) (by decide)

/-- Claim C3, counterexample: The ordered algorithm as the claim words it
("the reference with any leading `./` stripped") denies resolution for the
reference `".foo.png"` against a root containing `foo.png`, but the source's
`lstrip("./")` strips the leading `'.'` as a character, so
`resolve_image_path` resolves it to `/data/foo.png`. -/
theorem C3_counterexample :
    resolve_image_path ["/data/foo.png"] (some "/data") "/j" (fun _ => none) ".foo.png"
      = "/data/foo.png"
    ∧ specResolve ["/data/foo.png"] "/data" ".foo.png" = none :=
  ⟨by with_unfolding_all decide, by with_unfolding_all decide⟩

/-- Claim C3, amended: With a cold basename cache, path resolution follows
the claim's ordered algorithm, first match winning, with step 2 amended to
join the reference stripped of *all* leading `'.'` and `'/'` characters
(Python's `lstrip("./")`) rather than of a literal `"./"` prefix: whenever
that ordered algorithm resolves the reference, `resolve_image_path`
returns the same path. -/
theorem C3_resolution_order (fs : List String) (root jsonDir ref p : String)
    (hroot : root ≠ "")
    (hspec : specResolveLstrip fs root ref = some p) :
    resolve_image_path fs (some root) jsonDir (fun _ => none) ref = p := by
  unfold specResolveLstrip at hspec
  unfold resolve_image_path
  by_cases h1 : isAbs ref ∧ ref ∈ fs
  · simp only [h1, if_true] at hspec ⊢
    exact Option.some.inj hspec
  · simp only [h1, if_false] at hspec ⊢
    simp only [hroot, if_false]
    by_cases h2 : (root ++ "/" ++ pyLstripDots ref) ∈ fs
    · simp only [h2, if_true] at hspec ⊢
      exact Option.some.inj hspec
    · simp only [h2, if_false] at hspec ⊢
      unfold resolveSearch
      cases h3 : (rglobMatches fs root (pathName ref)).find?
          (fun q => pyLower (parentName q) = "images") with
      | some q =>
        rw [h3] at hspec
        simp at hspec
        simpa using hspec
      | none =>
        rw [h3] at hspec
        cases h4 : (rglobMatches fs root (pathName ref)).head? with
        | some q =>
          rw [h4] at hspec
          simp at hspec
          simpa using hspec
        | none =>
          rw [h4] at hspec
          exact absurd hspec (by simp)

/-- Witness for the amended C3: the spec scenario — a data root containing
`images/foo.png` and the declared reference `./old/path/foo.png` — resolves
to the path under `images/`. -/
theorem C3_resolution_order_witness :
    resolve_image_path ["/data/images/foo.png"] (some "/data") "/j" (fun _ => none)
      "./old/path/foo.png" = "/data/images/foo.png" :=
  C3_resolution_order ["/data/images/foo.png"] "/data" "/j" "./old/path/foo.png"
    "/data/images/foo.png" (by decide) (by with_unfolding_all decide)

/-- Claim C4, counterexample: When no resolution step matches, the source does
not fail with `ImageNotFound`: it returns the original (non-existing)
reference unchanged, leaving the failure to the later load. -/
theorem C4_counterexample :
    resolve_image_path [] (some "/data") "/j" (fun _ => none) "missing.png" = "missing.png"
    ∧ specResolveLstrip [] "/data" "missing.png" = none
    ∧ "missing.png" ∉ ([] : List String) :=
  ⟨by with_unfolding_all decide, by with_unfolding_all decide, by simp⟩

/-- Claim C4, amended: When no resolution step matches (the reference is not
an existing absolute path, does not exist rebased under the data root, the
cache holds no existing path for its basename, and no file with the same
basename exists under the root), `resolve_image_path` returns the original
reference unchanged — no `ImageNotFound` error and no placeholder path. -/
theorem C4_no_match_returns_original (fs : List String) (root jsonDir ref : String)
    (cache : String → Option String)
    (hroot : root ≠ "")
    (h1 : ¬(isAbs ref ∧ ref ∈ fs))
    (h2 : (root ++ "/" ++ pyLstripDots ref) ∉ fs)
    (h3 : ∀ c, cache (pathName ref) = some c → ¬(c ≠ "" ∧ c ∈ fs))
    (h4 : rglobMatches fs root (pathName ref) = []) :
    resolve_image_path fs (some root) jsonDir cache ref = ref := by
  unfold resolve_image_path
  simp only [h1, if_false, hroot, h2]
  have hsearch : resolveSearch fs root (pathName ref) ref = ref := by
    unfold resolveSearch
    rw [h4]
    rfl
  cases hc : cache (pathName ref) with
  | none => simpa using hsearch
  | some c =>
    have := h3 c hc
    simp only [this, if_false]
    simpa using hsearch

/-- Witness for the amended C4 on an empty data root. -/
theorem C4_no_match_returns_original_witness :
    resolve_image_path [] (some "/data") "/j" (fun _ => none) "gone.png" = "gone.png" :=
  C4_no_match_returns_original [] "/data" "/j" "gone.png" (fun _ => none)
    (by decide) (by decide) (by decide) (fun c hc => nomatch hc) rfl

/-- Claim C1, counterexample: A fully out-of-bounds box need *not* yield an
all-black buffer: for a 10×10 all-ones image and the box
`(10, 4, 12, 6)` (entirely right of the image, `xmin ≥ w`), the default
padding makes the crop window reach back inside the image, and the
resulting buffer has pixel value 1 at the origin. -/
theorem C1_counterexample :
    (⟨10, 10, 3, fun _ _ _ => 1⟩ : Img).w = 10
    ∧ (10 : ℤ) ≤ (⟨10, 4, 12, 6⟩ : BBox).xmin
    ∧ ((crop_with_padding ⟨10, 10, 3, fun _ _ _ => 1⟩ ⟨10, 4, 12, 6⟩ ⟨1, 3⟩).map
        (fun o => o.px 0 0 0)) = some 1 :=
  ⟨rfl, by decide, by with_unfolding_all decide⟩

/-- Claim C1, amended: For every 3-channel source buffer and every valid
`(box, padding_ratio, output_size)` — `xmax > xmin`, `ymax > ymin`,
`padding_ratio ≥ 0`, `output_size > 0`, and a positive computed half-extent
(otherwise the canvas is empty and `cv2.resize` raises) —
`crop_with_padding` returns a buffer of exactly
`output_size × output_size` with 3 channels, regardless of the box's
position relative to the image bounds; a box whose *padded crop window*
misses the image yields an all-black buffer; and a box whose window
crosses only the left image border yields a canvas with black padding
exactly on that outside strip and image content elsewhere. -/
theorem C1_crop_output (img : Img) (b : BBox) (spec : CropSpec)
    (hc : img.c = 3)
    (_hbx : b.xmin < b.xmax) (_hby : b.ymin < b.ymax)
    (_hpad : 0 ≤ spec.padding_ratio)
    (hhalf : 0 < cropHalf b spec.padding_ratio)
    (hout : 0 < spec.output_size) :
    ∃ out, crop_with_padding img b spec = some out
      ∧ out.h = spec.output_size ∧ out.w = spec.output_size ∧ out.c = 3
      ∧ ((min (img.w : ℤ) (winRight b spec.padding_ratio)
            ≤ max 0 (winLeft b spec.padding_ratio)
          ∨ min (img.h : ℤ) (winBottom b spec.padding_ratio)
            ≤ max 0 (winTop b spec.padding_ratio)) →
          ∀ y x ch, out.px y x ch = 0)
      ∧ (∀ (y x ch : ℕ), winLeft b spec.padding_ratio < 0 → 0 ≤ winTop b spec.padding_ratio →
          winRight b spec.padding_ratio ≤ (img.w : ℤ) →
          winBottom b spec.padding_ratio ≤ (img.h : ℤ) →
          (y : ℤ) < 2 * cropHalf b spec.padding_ratio →
          (x : ℤ) < 2 * cropHalf b spec.padding_ratio →
          ((x : ℤ) < -(winLeft b spec.padding_ratio) →
            (cropCanvas img b spec.padding_ratio).px y x ch = 0)
          ∧ (-(winLeft b spec.padding_ratio) ≤ (x : ℤ) →
            (cropCanvas img b spec.padding_ratio).px y x ch
              = img.px (winTop b spec.padding_ratio + (y : ℤ)).toNat
                  (winLeft b spec.padding_ratio + (x : ℤ)).toNat ch)) := by
  refine ⟨resizeArea (cropCanvas img b spec.padding_ratio) spec.output_size,
    crop_with_padding_some img b spec hhalf hout, rfl, rfl, hc, ?_, ?_⟩
  · intro hempt y x ch
    exact resizeArea_zero _ _ (cropCanvas_zero_of_empty img b spec.padding_ratio hempt) y x ch
  · intro y x ch hl ht hr2 hb hy2 hx2
    exact cropCanvas_left_border img b spec.padding_ratio hl ht hr2 hb y x ch hy2 hx2

/-- Witness for the amended C1: a 10×10 all-ones image, box `(2, 2, 6, 4)`,
padding ratio 1 and output size 4. -/
theorem C1_crop_output_witness :
    ∃ out, crop_with_padding ⟨10, 10, 3, fun _ _ _ => 1⟩ ⟨2, 2, 6, 4⟩ ⟨1, 4⟩ = some out
      ∧ out.h = 4 ∧ out.w = 4 ∧ out.c = 3
      ∧ ((min ((⟨10, 10, 3, fun _ _ _ => 1⟩ : Img).w : ℤ) (winRight ⟨2, 2, 6, 4⟩ 1)
            ≤ max 0 (winLeft ⟨2, 2, 6, 4⟩ 1)
          ∨ min ((⟨10, 10, 3, fun _ _ _ => 1⟩ : Img).h : ℤ) (winBottom ⟨2, 2, 6, 4⟩ 1)
            ≤ max 0 (winTop ⟨2, 2, 6, 4⟩ 1)) →
          ∀ y x ch, out.px y x ch = 0)
      ∧ (∀ (y x ch : ℕ), winLeft ⟨2, 2, 6, 4⟩ 1 < 0 → 0 ≤ winTop ⟨2, 2, 6, 4⟩ 1 →
          winRight ⟨2, 2, 6, 4⟩ 1 ≤ ((⟨10, 10, 3, fun _ _ _ => 1⟩ : Img).w : ℤ) →
          winBottom ⟨2, 2, 6, 4⟩ 1 ≤ ((⟨10, 10, 3, fun _ _ _ => 1⟩ : Img).h : ℤ) →
          (y : ℤ) < 2 * cropHalf ⟨2, 2, 6, 4⟩ 1 →
          (x : ℤ) < 2 * cropHalf ⟨2, 2, 6, 4⟩ 1 →
          ((x : ℤ) < -(winLeft ⟨2, 2, 6, 4⟩ 1) →
            (cropCanvas ⟨10, 10, 3, fun _ _ _ => 1⟩ ⟨2, 2, 6, 4⟩ 1).px y x ch = 0)
          ∧ (-(winLeft ⟨2, 2, 6, 4⟩ 1) ≤ (x : ℤ) →
            (cropCanvas ⟨10, 10, 3, fun _ _ _ => 1⟩ ⟨2, 2, 6, 4⟩ 1).px y x ch
              = (⟨10, 10, 3, fun _ _ _ => 1⟩ : Img).px
                  (winTop ⟨2, 2, 6, 4⟩ 1 + (y : ℤ)).toNat
                  (winLeft ⟨2, 2, 6, 4⟩ 1 + (x : ℤ)).toNat ch)) :=
  C1_crop_output ⟨10, 10, 3, fun _ _ _ => 1⟩ ⟨2, 2, 6, 4⟩ ⟨1, 4⟩ rfl (by decide) (by decide)
    (by decide) (by with_unfolding_all decide) (by decide)

end NOA
